import Mathlib

/-
Shallow embedding of hashicorp/terraform-provider-external.

Embedded source files:
  * internal/provider/program.go  (interchange-directory manager, command
    executor: Program, openDir, prepareEnv, executeCommand, storeId,
    storeAttributes, getArgs, closeDir, readFile, createFile)
  * internal/provider/resource.go (lifecycle orchestrators
    resourceExternalCreate / Read / Update / Delete, runProgram)
  * the framework data source (externalDataSource.Read) and the ephemeral
    resource (externalEphemeralResource.Open), which share the same
    filter / lookup / execute / parse pipeline.

Operating-system effects (filesystem, process spawning, environment) are
modelled by an explicit oracle record `Os`; the external program itself is
modelled as a function `Dir → Dir` on the interchange directory plus an
exit flag. Go map iteration order is unspecified; maps are modelled as
association lists in insertion order of the Go map literals.
-/

namespace External

/-- Severity of a diagnostic, mirroring terraform-plugin-sdk diag.Severity. -/
inductive Severity where
  | error
  | warning
  deriving DecidableEq, Repr

/-- One diagnostic record: severity, summary, detail. -/
structure Diagnostic where
  severity : Severity
  summary : String
  detail : String
  deriving DecidableEq, Repr

/-- diag.Diagnostics.HasError: true when any accumulated diagnostic has
error severity. -/
def hasError (diags : List Diagnostic) : Bool :=
  diags.any (fun d => d.severity == Severity.error)

def errDiag (summary detail : String) : Diagnostic :=
  { severity := Severity.error, summary := summary, detail := detail }

def warnDiag (summary detail : String) : Diagnostic :=
  { severity := Severity.warning, summary := summary, detail := detail }

/-- A file in the interchange directory: permission bits and content. -/
structure FileEntry where
  mode : Nat
  content : String
  deriving DecidableEq, Repr

/-- The interchange directory: an association list from file name to entry. -/
abbrev Dir := List (String × FileEntry)

def dirGet : Dir → String → Option FileEntry
  | [], _ => none
  | x :: rest, name => if x.1 = name then some x.2 else dirGet rest name

def dirSet : Dir → String → FileEntry → Dir
  | [], name, e => [(name, e)]
  | x :: rest, name, e =>
    if x.1 = name then (name, e) :: rest else x :: dirSet rest name e

/-- path.Join of the temporary-directory path and a file name. -/
def joinPath (dir name : String) : String :=
  if dir = "" then name else dir ++ "/" ++ name

/-- Resource attribute values as seen through schema.ResourceData
(resource.go schema). `stateOld`/`stateNew` are the two components of
data.GetChange("state"). `programCreate` is `none` when the optional
attribute is unset (data.Get then yields an empty list). -/
structure ResourceData where
  id : String
  stateNew : String
  stateOld : String
  input : String
  inputSensitive : String
  output : String
  outputSensitive : String
  programCreate : Option (List String)
  programRead : List String
  programUpdate : List String
  programDelete : List String
  programTmpdir : String
  programTmpdirKeep : Bool
  programTmpdirKeepOnError : Bool
  programOutputCombined : Bool
  deriving DecidableEq, Repr

/-- The `program` struct of program.go. -/
structure Prog where
  combinedOutput : Bool
  currentTmpDir : String
  data : ResourceData
  files : List (String × String)
  inputTmpDir : String
  keepTmpDir : Bool
  keepTmpDirOnError : Bool
  name : String
  perms : List (String × Nat)
  deriving DecidableEq, Repr

/-- Operating-system oracle: outcomes of every OS interaction performed by
program.go, plus the behaviour of the external program itself (`run`,
transforming the interchange directory, and `exitOk` for cmd.Wait). -/
structure Os where
  dataDir : String
  getwdFails : Bool
  mkdirFails : String → Bool
  tempDirFails : Bool
  tempDirName : String
  writeFileFails : String → Bool
  absPath : String → Option String
  osEnviron : List String
  openForWritingFails : String → Bool
  closeFileFails : String → Bool
  startFails : Bool
  exitOk : Bool
  run : Dir → Dir
  readBackFails : String → Bool
  chmodFails : String → Nat → Bool
  removeAllFails : Bool
  osErrorMsg : String

/-- TempDirBase as computed by init(): TF_DATA_DIR (or ".terraform")
joined with "terraform-provider-external". -/
def tempDirBase (os : Os) : String :=
  os.dataDir ++ "/terraform-provider-external"

/-- Program (program.go): builds the program value from resource data.
The files map and perms map are written here in the insertion order of
the Go map literals (Go map iteration order is unspecified). -/
def Program (data : ResourceData) (providerInput : String) : Prog :=
  { combinedOutput := data.programOutputCombined
    currentTmpDir := ""
    data := data
    files :=
      [("provider_input", providerInput),
       ("input", data.input),
       ("input_sensitive", data.inputSensitive),
       ("output", data.output),
       ("output_sensitive", data.outputSensitive),
       ("state", data.stateNew),
       ("old_state", data.stateOld),
       ("id", data.id)] ++
      (if data.programOutputCombined then
        [("stdall", "")]
      else
        [("stdout", ""), ("stderr", "")])
    inputTmpDir := data.programTmpdir
    keepTmpDir := data.programTmpdirKeep
    keepTmpDirOnError := data.programTmpdirKeepOnError
    name := ""
    perms :=
      [("output", 0o200), ("output_sensitive", 0o200), ("state", 0o600),
       ("id", 0o600), ("stdout", 0o600), ("stderr", 0o600),
       ("stdall", 0o600)] }

def lookupPerm (perms : List (String × Nat)) (name : String) : Nat :=
  match perms.find? (fun e => e.1 == name) with
  | some e => e.2
  | none => 0o400

/-- One attempted start of an external command: the program key it was
selected from, the argument vector and the prepared environment. -/
structure Invocation where
  key : String
  argv : List String
  env : List String
  deriving DecidableEq, Repr

/-- Result of executeCommand: directory after the program ran, the
diagnostics, and the commands the executor actually started. -/
structure ExecOut where
  dir : Dir
  diags : List Diagnostic
  invs : List Invocation
  deriving DecidableEq, Repr

/-- createFile (program.go): ioutil.WriteFile of one interchange file
inside p.currentTmpDir (passed here as tmpDir). WriteFile applies the
permission only when it creates the file; an existing file keeps its
mode and gets truncated to the new content. -/
def createFile (tmpDir : String) (dir : Dir) (os : Os) (name content : String)
    (perm : Nat) : Dir × List Diagnostic :=
  let fullPath := joinPath tmpDir name
  if os.writeFileFails name then
    (dir, [errDiag ("Error writing to file " ++ fullPath ++ " with permissions ")
             os.osErrorMsg])
  else
    match dirGet dir name with
    | some e => (dirSet dir name { mode := e.mode, content := content }, [])
    | none => (dirSet dir name { mode := perm, content := content }, [])

/-- The file-creation loop of openDir: each entry of p.files is written
with its permission from p.perms (default 0400), stopping at the first
error. -/
def createFiles (perms : List (String × Nat)) (tmpDir : String) (os : Os) :
    List (String × String) → Dir → Dir × List Diagnostic
  | [], dir => (dir, [])
  | (name, content) :: rest, dir =>
    let perm := lookupPerm perms name
    let step := createFile tmpDir dir os name content perm
    if hasError step.2 then
      (step.1, step.2)
    else
      let next := createFiles perms tmpDir os rest step.1
      (next.1, step.2 ++ next.2)

/-- openDir (program.go): choose / create the interchange directory (the
pinned `program_tmpdir` path if set, else a unique fresh directory under
TempDirBase) and populate every interchange file. `dir0` is the current
content of the pinned path; a fresh unique directory starts empty. -/
def openDir (p : Prog) (dir0 : Dir) (os : Os) : Prog × Dir × List Diagnostic :=
  if os.getwdFails then
    (p, dir0, [errDiag "Error retrieving current working director" os.osErrorMsg])
  else if p.inputTmpDir ≠ "" then
    if os.mkdirFails p.inputTmpDir then
      (p, dir0, [errDiag ("Error creating temporary directory parent " ++
                   tempDirBase os) os.osErrorMsg])
    else
      let p1 : Prog := { p with currentTmpDir := p.inputTmpDir }
      let made := createFiles p1.perms p1.currentTmpDir os p1.files dir0
      (p1, made.1, made.2)
  else
    if os.mkdirFails (tempDirBase os) then
      (p, dir0, [errDiag ("Error creating temporary directory parent " ++
                   tempDirBase os) os.osErrorMsg])
    else if os.tempDirFails then
      (p, dir0, [errDiag ("Error creating temporary directory " ++
                   tempDirBase os) os.osErrorMsg])
    else
      let p1 : Prog := { p with currentTmpDir := tempDirBase os ++ "/" ++ os.tempDirName }
      let made := createFiles p1.perms p1.currentTmpDir os p1.files []
      (p1, made.1, made.2)

/-- prepareEnv (program.go): os.Environ() plus TF_EXTERNAL_DIR,
TF_EXTERNAL_DIR_ABS and the colon-joined TF_EXTERNAL_MANAGED_FILES. -/
def prepareEnv (p : Prog) (os : Os) : List String × List Diagnostic :=
  let env := os.osEnviron
  if p.currentTmpDir.length = 0 then
    (env, [errDiag "Cannot prepareEnv() because currentTmpDir is empty!" ""])
  else
    let env := env ++ ["TF_EXTERNAL_DIR=" ++ p.currentTmpDir]
    match os.absPath p.currentTmpDir with
    | none =>
      (env, [errDiag ("Failed converting " ++ p.currentTmpDir ++ " to absolute path!")
               os.osErrorMsg])
    | some abs =>
      let env := env ++ ["TF_EXTERNAL_DIR_ABS=" ++ abs]
      let fileNames := p.files.map Prod.fst
      (env ++ ["TF_EXTERNAL_MANAGED_FILES=" ++ String.intercalate ":" fileNames], [])

/-- closeDir (program.go): removes the interchange directory recursively
unless `program_tmpdir_keep` is set, or `program_tmpdir_keep_on_error` is
set and the invocation had an error. A failed removal only produces a
warning. Returns the updated program value, whether os.RemoveAll was
invoked, and the diagnostics. -/
def closeDir (p : Prog) (os : Os) (hadError : Bool) :
    Prog × Bool × List Diagnostic :=
  if p.currentTmpDir = "" then
    (p, false, [])
  else if p.keepTmpDir then
    (p, false, [])
  else if p.keepTmpDirOnError && hadError then
    (p, false, [])
  else
    let diags :=
      if os.removeAllFails then
        [warnDiag ("Error when cleaning up temporary directory " ++ p.currentTmpDir)
           os.osErrorMsg]
      else []
    ({ p with currentTmpDir := "" }, true, diags)

/-- Result of readFile: the text read, the directory afterwards, the
diagnostics, and the trace of os.Chmod calls (file name, requested mode). -/
structure ReadFileOut where
  text : String
  dir : Dir
  diags : List Diagnostic
  chmods : List (String × Nat)
  deriving DecidableEq, Repr

/-- readFile (program.go): stat the file (missing file is only a warning
and yields empty content); when the current mode forbids reading, chmod
to 0400 before reading and chmod back to the original mode afterwards,
even when the read itself failed. -/
def readFile (p : Prog) (dir : Dir) (os : Os) (name : String) : ReadFileOut :=
  let fullPath := joinPath p.currentTmpDir name
  match dirGet dir name with
  | none =>
    { text := ""
      dir := dir
      diags := [warnDiag ("Error retrieving file information for " ++ fullPath)
                  os.osErrorMsg]
      chmods := [] }
  | some info =>
    let readMode : Nat := 0o400
    let oldMode := info.mode
    let couldNotRead := info.mode &&& 0o400 == 0
    if couldNotRead && os.chmodFails name readMode then
      { text := ""
        dir := dir
        diags := [errDiag ("Error when making file readable " ++ fullPath)
                    os.osErrorMsg]
        chmods := [(name, readMode)] }
    else
      let dir1 :=
        if couldNotRead then dirSet dir name { mode := readMode, content := info.content }
        else dir
      let chmods1 : List (String × Nat) :=
        if couldNotRead then [(name, readMode)] else []
      let readStep :=
        if os.readBackFails name then
          ("", [errDiag ("Error opening file " ++ fullPath) os.osErrorMsg])
        else
          (info.content, ([] : List Diagnostic))
      let text := readStep.1
      if couldNotRead then
        if os.chmodFails name oldMode then
          { text := text
            dir := dir1
            diags := readStep.2 ++
              [errDiag ("Error when reverting file mode for " ++ fullPath)
                 os.osErrorMsg]
            chmods := chmods1 ++ [(name, oldMode)] }
        else
          { text := text
            dir := dirSet dir1 name { mode := oldMode, content := info.content }
            diags := readStep.2
            chmods := chmods1 ++ [(name, oldMode)] }
      else
        { text := text, dir := dir1, diags := readStep.2, chmods := chmods1 }

/-- getArgs (program.go): the configured argument vector for one of the
four program_* keys, as data.Get returns it (unset optional list gives
an empty list). -/
def getArgs (data : ResourceData) (key : String) : List String :=
  if key = "program_create" then data.programCreate.getD []
  else if key = "program_read" then data.programRead
  else if key = "program_update" then data.programUpdate
  else if key = "program_delete" then data.programDelete
  else []

/-- The multi-line command representation built in executeCommand:
every argument is printed as "program[i]: " plus the argument, with
continuation lines of a multi-line argument indented. -/
def cmdReprOf (args : List String) : String :=
  let lines :=
    (args.enum.map (fun pair =>
      let prefixStr := "program[" ++ toString pair.1 ++ "]: "
      (pair.2.splitOn "\n").enum.map (fun lp =>
        if lp.1 = 0 then prefixStr ++ lp.2
        else String.mk (List.replicate prefixStr.length ' ') ++ lp.2))).flatten
  String.intercalate "\n" lines

/-- Reading one captured-output file back after the program ran
(ioutil.ReadFile in executeCommand); a failure is only a warning and
yields empty content. -/
def readCaptured (p : Prog) (dir : Dir) (os : Os) (name what : String) :
    String × List Diagnostic :=
  let fullPath := joinPath p.currentTmpDir name
  match dirGet dir name with
  | none =>
    ("", [warnDiag ("Error reading from " ++ what ++ " output file " ++ fullPath ++
            " for " ++ p.name) ""])
  | some e =>
    if os.readBackFails name then
      ("", [warnDiag ("Error reading from " ++ what ++ " output file " ++ fullPath ++
              " for " ++ p.name) ""])
    else (e.content, [])

def startErrDiag (p : Prog) (os : Os) (cmdRepr : String) : Diagnostic :=
  errDiag ("Error when starting program " ++ p.name ++ " in " ++ p.currentTmpDir)
    ("ERROR=" ++ os.osErrorMsg ++ "\nCOMMAND:\n" ++ cmdRepr)

def combinedOutputDiag (p : Prog) (cmdRepr outputRepr : String)
    (outputLength : Nat) : Diagnostic :=
  warnDiag ("Combined output (" ++ toString outputLength ++ " bytes) of " ++
      p.name ++ ":\n" ++ cmdRepr) outputRepr

def runErrDiag (p : Prog) (os : Os) (cmdRepr outputRepr : String)
    (outputLength : Nat) : Diagnostic :=
  errDiag ("Error when running " ++ p.name ++ " in " ++ p.currentTmpDir ++ ": " ++
      os.osErrorMsg)
    (cmdRepr ++ "\nOUTPUT (" ++ toString outputLength ++ " bytes):\n" ++ outputRepr)

def closeFileWarn (p : Prog) (os : Os) (name : String) : List Diagnostic :=
  if os.closeFileFails name then
    [warnDiag ("Error when closing file for writing " ++ joinPath p.currentTmpDir name) ""]
  else []

/-- executeCommand (program.go): prepare the environment, open the
captured-output file(s), start the configured command, wait for it, read
the captured output back, and always emit the trace warning holding the
full command line and output; a nonzero exit adds an error diagnostic.
Returns `none` when the argument list is empty (Go indexes args[0] and
would crash). The deferred closeFile warnings are appended last, as Go's
defer on the named diags result does. -/
def executeCommand (p : Prog) (dir : Dir) (os : Os) (key : String) : Option ExecOut :=
  let args := getArgs p.data key
  match args with
  | [] => none
  | _arg0 :: _rest =>
    let envStep := prepareEnv p os
    if hasError envStep.2 then
      some { dir := dir, diags := envStep.2, invs := [] }
    else
      let env := envStep.1
      let cmdRepr := cmdReprOf args
      let inv : Invocation := { key := key, argv := args, env := env }
      if p.combinedOutput then
        if os.openForWritingFails "stdall" then
          some { dir := dir
                 diags := envStep.2 ++
                   [errDiag ("Error when opening file for writing " ++
                      joinPath p.currentTmpDir "stdall") ""]
                 invs := [] }
        else
          let closeW := closeFileWarn p os "stdall"
          if os.startFails then
            some { dir := dir
                   diags := envStep.2 ++ [startErrDiag p os cmdRepr] ++ closeW
                   invs := [] }
          else
            let dir1 := os.run dir
            let captured := readCaptured p dir1 os "stdall" "combined"
            let outputRepr := captured.1
            let outputLength := captured.1.length
            some { dir := dir1
                   diags := envStep.2 ++ captured.2 ++
                     [combinedOutputDiag p cmdRepr outputRepr outputLength] ++
                     (if os.exitOk then []
                      else [runErrDiag p os cmdRepr outputRepr outputLength]) ++
                     closeW
                   invs := [inv] }
      else
        if os.openForWritingFails "stdout" then
          some { dir := dir
                 diags := envStep.2 ++
                   [errDiag ("Error when opening file for writing " ++
                      joinPath p.currentTmpDir "stdout") ""]
                 invs := [] }
        else if os.openForWritingFails "stderr" then
          some { dir := dir
                 diags := envStep.2 ++
                   [errDiag ("Error when opening file for writing " ++
                      joinPath p.currentTmpDir "stderr") ""] ++
                   closeFileWarn p os "stdout"
                 invs := [] }
        else
          let closeW := closeFileWarn p os "stderr" ++ closeFileWarn p os "stdout"
          if os.startFails then
            some { dir := dir
                   diags := envStep.2 ++ [startErrDiag p os cmdRepr] ++ closeW
                   invs := [] }
          else
            let dir1 := os.run dir
            let capturedOut := readCaptured p dir1 os "stdout" "stdout"
            let capturedErr := readCaptured p dir1 os "stderr" "stderr"
            let outputRepr := "=== STDOUT ===\n" ++ capturedOut.1 ++
              "=== STDERR ===\n" ++ capturedErr.1
            let outputLength := capturedOut.1.length + capturedErr.1.length
            some { dir := dir1
                   diags := envStep.2 ++ capturedOut.2 ++ capturedErr.2 ++
                     [combinedOutputDiag p cmdRepr outputRepr outputLength] ++
                     (if os.exitOk then []
                      else [runErrDiag p os cmdRepr outputRepr outputLength]) ++
                     closeW
                   invs := [inv] }

/-- storeId (program.go): read the id file back and store it as the
resource identity unless the read produced an error diagnostic. -/
def storeId (p : Prog) (dir : Dir) (os : Os) : Prog × Dir × List Diagnostic :=
  let r := readFile p dir os "id"
  if hasError r.diags then (p, r.dir, r.diags)
  else ({ p with data := { p.data with id := r.text } }, r.dir, r.diags)

/-- data.Set for the three read-back string attributes. -/
def setAttr (data : ResourceData) (attr text : String) : ResourceData :=
  if attr = "state" then { data with stateNew := text }
  else if attr = "output" then { data with output := text }
  else if attr = "output_sensitive" then { data with outputSensitive := text }
  else data

/-- One iteration of the storeAttributes loop. -/
def storeAttributesStep (os : Os) (acc : Prog × Dir × List Diagnostic)
    (attr : String) : Prog × Dir × List Diagnostic :=
  let r := readFile acc.1 acc.2.1 os attr
  let diags := r.diags ++ acc.2.2
  if hasError r.diags then (acc.1, r.dir, diags)
  else ({ acc.1 with data := setAttr acc.1.data attr r.text }, r.dir, diags)

/-- storeAttributes (program.go): read every named file back and set the
attribute when its own read had no error; new diagnostics are prepended
to the accumulated ones, as the Go code appends in that order. -/
def storeAttributes (p : Prog) (dir : Dir) (os : Os) (attrs : List String) :
    Prog × Dir × List Diagnostic :=
  attrs.foldl (storeAttributesStep os) (p, dir, [])

/-- One verb invocation's outcome: the resource data afterwards, the
directory contents at close time, all diagnostics, the commands started,
and whether closeDir invoked os.RemoveAll. -/
structure VerbResult where
  data : ResourceData
  dir : Dir
  diags : List Diagnostic
  invocations : List Invocation
  removeCalled : Bool
  deriving DecidableEq, Repr

/-- The deferred p.closeDir(diags.HasError()) of every verb: its
diagnostics are appended after everything else. -/
def finishClose (p : Prog) (os : Os) (dir : Dir) (diags : List Diagnostic)
    (invs : List Invocation) : VerbResult :=
  let closed := closeDir p os (hasError diags)
  { data := closed.1.data
    dir := dir
    diags := diags ++ closed.2.2
    invocations := invs
    removeCalled := closed.2.1 }

/-- The shared tail of create/read/update (resource.go): storeId, abort
on accumulated error, storeAttributes, then the deferred closeDir. -/
def storeTail (p : Prog) (os : Os) (dir : Dir) (diags : List Diagnostic)
    (invs : List Invocation) : VerbResult :=
  let idStep := storeId p dir os
  let diags1 := diags ++ idStep.2.2
  if hasError diags1 then finishClose idStep.1 os idStep.2.1 diags1 invs
  else
    let attrStep := storeAttributes idStep.1 idStep.2.1 os
      ["state", "output", "output_sensitive"]
    finishClose attrStep.1 os attrStep.2.1 (diags1 ++ attrStep.2.2) invs

/-- data.GetOk("program_create"): set and not the zero value (a set empty
list counts as unset). -/
def getOkProgramCreate (data : ResourceData) : Bool :=
  match data.programCreate with
  | some l => !l.isEmpty
  | none => false

/-- resourceExternalCreate (resource.go): open the directory, run
program_create when configured (aborting on error) or fall back to
program_update (the fallback branch has no error check before the
read-back), then storeId / storeAttributes and the deferred closeDir. -/
def resourceExternalCreate (data : ResourceData) (providerInput : String)
    (dir0 : Dir) (os : Os) : Option VerbResult :=
  let p0 : Prog := { Program data providerInput with name := "create" }
  let opened := openDir p0 dir0 os
  if hasError opened.2.2 then
    some (finishClose opened.1 os opened.2.1 opened.2.2 [])
  else
    if getOkProgramCreate data then
      let p2 : Prog := { opened.1 with name := opened.1.name ++ ">create" }
      match executeCommand p2 opened.2.1 os "program_create" with
      | none => none
      | some ex =>
        let diags := opened.2.2 ++ ex.diags
        if hasError diags then
          some (finishClose p2 os ex.dir diags ex.invs)
        else
          some (storeTail { p2 with name := "create" } os ex.dir diags ex.invs)
    else
      let p2 : Prog := { opened.1 with name := opened.1.name ++ ">update" }
      match executeCommand p2 opened.2.1 os "program_update" with
      | none => none
      | some ex =>
        some (storeTail { p2 with name := "create" } os ex.dir
          (opened.2.2 ++ ex.diags) ex.invs)

/-- resourceExternalRead (resource.go): open, run program_read, abort on
error, then the shared read-back tail and the deferred closeDir. -/
def resourceExternalRead (data : ResourceData) (providerInput : String)
    (dir0 : Dir) (os : Os) : Option VerbResult :=
  let p0 : Prog := { Program data providerInput with name := "read" }
  let opened := openDir p0 dir0 os
  if hasError opened.2.2 then
    some (finishClose opened.1 os opened.2.1 opened.2.2 [])
  else
    match executeCommand opened.1 opened.2.1 os "program_read" with
    | none => none
    | some ex =>
      let diags := opened.2.2 ++ ex.diags
      if hasError diags then
        some (finishClose opened.1 os ex.dir diags ex.invs)
      else
        some (storeTail opened.1 os ex.dir diags ex.invs)

/-- resourceExternalUpdate (resource.go): open, run program_update, abort
on error, then the shared read-back tail and the deferred closeDir. -/
def resourceExternalUpdate (data : ResourceData) (providerInput : String)
    (dir0 : Dir) (os : Os) : Option VerbResult :=
  let p0 : Prog := { Program data providerInput with name := "update" }
  let opened := openDir p0 dir0 os
  if hasError opened.2.2 then
    some (finishClose opened.1 os opened.2.1 opened.2.2 [])
  else
    match executeCommand opened.1 opened.2.1 os "program_update" with
    | none => none
    | some ex =>
      let diags := opened.2.2 ++ ex.diags
      if hasError diags then
        some (finishClose opened.1 os ex.dir diags ex.invs)
      else
        some (storeTail opened.1 os ex.dir diags ex.invs)

/-- runProgram (program.go): the open / execute / storeId /
storeAttributes / closeDir sequence used by the delete verb. The close
is not registered before the openDir error check, so an openDir failure
returns without any directory close. -/
def runProgram (data : ResourceData) (providerInput : String) (dir0 : Dir)
    (os : Os) (name key : String) : Option VerbResult :=
  let p0 : Prog := { Program data providerInput with name := name }
  let opened := openDir p0 dir0 os
  if hasError opened.2.2 then
    some { data := opened.1.data, dir := opened.2.1, diags := opened.2.2,
           invocations := [], removeCalled := false }
  else
    match executeCommand opened.1 opened.2.1 os key with
    | none => none
    | some ex =>
      let diags := opened.2.2 ++ ex.diags
      if hasError diags then
        some (finishClose opened.1 os ex.dir diags ex.invs)
      else
        some (storeTail opened.1 os ex.dir diags ex.invs)

/-- resourceExternalDelete (resource.go): run program_delete via
runProgram, then unconditionally clear the resource identity with
data.SetId(""). -/
def resourceExternalDelete (data : ResourceData) (providerInput : String)
    (dir0 : Dir) (os : Os) : Option VerbResult :=
  match runProgram data providerInput dir0 os "delete" "program_delete" with
  | none => none
  | some r => some { r with data := { r.data with id := "" } }

/-- Result of exec.LookPath: ErrDot (relative path implicitly resolved in
the current directory) or any other lookup error. -/
inductive LookupErr where
  | errDot
  | other (msg : String)
  deriving DecidableEq, Repr

/-- A JSON value, as json.Unmarshal into interface yields it. -/
inductive JsonValue where
  | null
  | bool (b : Bool)
  | num (n : Int)
  | str (s : String)
  | arr (elems : List JsonValue)
  | obj (fields : List (String × JsonValue))

/-- The decoded configuration of the stateless data source / ephemeral
resource: program elements and query values may be null. The query map
is an association list with distinct keys. -/
structure StatelessConfig where
  program : List (Option String)
  workingDir : String
  query : List (String × Option String)
  deriving DecidableEq, Repr

/-- The filteredProgram loop (externalDataSource.Read and
externalEphemeralResource.Open): null and empty-string elements are
dropped before resolution. -/
def filteredProgram (program : List (Option String)) : List String :=
  program.filterMap (fun argRaw =>
    match argRaw with
    | none => none
    | some s => if s = "" then none else some s)

/-- The filteredQuery loop: map entries with null values are dropped;
every other entry (including empty strings) is kept. The result is the
object json.Marshal serializes onto the program's standard input. -/
def filteredQuery (query : List (String × Option String)) :
    List (String × String) :=
  query.filterMap (fun kv =>
    match kv.2 with
    | none => none
    | some v => some (kv.1, v))

/-- OS oracle for the stateless pipeline: the exec.LookPath outcome, the
result of cmd.Output() (stdout bytes or a failure), the collected stderr
and the json.Unmarshal outcome. -/
structure StatelessOs where
  lookup : String → Option LookupErr
  execOutput : Option String
  stderrStr : String
  parse : String → Option JsonValue

/-- Outcome of the stateless read: diagnostics, the LookPath argument if
resolution was reached, the serialized query and argv if cmd.Output was
reached, and the id / result stored into state on success. -/
structure StatelessResult where
  diags : List Diagnostic
  lookedUp : Option String
  sentQuery : Option (List (String × String))
  invoked : Option (List String)
  stateId : Option String
  stateResult : Option JsonValue

/-- externalDataSource.Read (and the identically-shaped
externalEphemeralResource.Open): filter the program list, reject an
all-empty program before anything is spawned, filter nulls out of the
query, resolve argv[0] (treating exec.ErrDot as success), execute the
program with the query JSON on stdin, parse its stdout as JSON, and on
success store the result together with the constant id "-". -/
def statelessRead (config : StatelessConfig) (os : StatelessOs) : StatelessResult :=
  match filteredProgram config.program with
  | [] =>
    { diags := [errDiag "External Program Missing"
        "The data source was configured without a program to execute. Verify the configuration contains at least one non-empty value."]
      lookedUp := none, sentQuery := none, invoked := none
      stateId := none, stateResult := none }
  | arg0 :: rest =>
    let fq := filteredQuery config.query
    let lookupOutcome :=
      match os.lookup arg0 with
      | some LookupErr.errDot => none
      | other => other
    match lookupOutcome with
    | some e =>
      { diags := [errDiag "External Program Lookup Failed"
          ("The data source received an unexpected error while attempting to find the program. Program: " ++
            arg0 ++ " Error: " ++ reprStr e)]
        lookedUp := some arg0, sentQuery := none, invoked := none
        stateId := none, stateResult := none }
    | none =>
      match os.execOutput with
      | none =>
        let detail :=
          if os.stderrStr.length > 0 then
            "The data source received an unexpected error while attempting to execute the program. Error Message: " ++
              os.stderrStr
          else
            "The data source received an unexpected error while attempting to execute the program. The program was executed, however it returned no additional error messaging."
        { diags := [errDiag "External Program Execution Failed" detail]
          lookedUp := some arg0, sentQuery := some fq
          invoked := some (arg0 :: rest)
          stateId := none, stateResult := none }
      | some resultJson =>
        match os.parse resultJson with
        | none =>
          { diags := [errDiag "Unexpected External Program Results"
              "Program output must be valid JSON."]
            lookedUp := some arg0, sentQuery := some fq
            invoked := some (arg0 :: rest)
            stateId := none, stateResult := none }
        | some result =>
          { diags := []
            lookedUp := some arg0, sentQuery := some fq
            invoked := some (arg0 :: rest)
            stateId := some "-", stateResult := some result }

/-- An operating-system oracle on which every setup interaction succeeds
(directory creation, file creation, opening and closing capture files,
process start, path resolution, directory removal). The external
program's behaviour (`run`, `exitOk`) and the read-back outcomes remain
free. -/
def NoSetupFailures (os : Os) : Prop :=
  os.getwdFails = false ∧
  (∀ s, os.mkdirFails s = false) ∧
  os.tempDirFails = false ∧
  (∀ s, os.writeFileFails s = false) ∧
  (∀ s, (os.absPath s).isSome = true) ∧
  (∀ s, os.openForWritingFails s = false) ∧
  (∀ s, os.closeFileFails s = false) ∧
  os.startFails = false ∧
  os.removeAllFails = false

/-- The read-back interactions all succeed (file reads and the chmod
dance of readFile). -/
def NoReadBackFailures (os : Os) : Prop :=
  (∀ s, os.readBackFails s = false) ∧ (∀ s m, os.chmodFails s m = false)

/-- The id file of a directory is empty or absent: how the interchange
directory looks when the external program never wrote a non-empty id. -/
def IdEmptyOrGone (d : Dir) : Prop :=
  ∀ e, dirGet d "id" = some e → e.content = ""

/-- A fully benign concrete oracle, used to instantiate theorems: every
OS interaction succeeds, the external program behaves as `run` and exits
with status given by `exitOk`. -/
def benignOs (dataDir tmpName errMsg : String) (environ : List String)
    (run : Dir → Dir) (exitOk : Bool) : Os :=
  { dataDir := dataDir
    getwdFails := false
    mkdirFails := fun _ => false
    tempDirFails := false
    tempDirName := tmpName
    writeFileFails := fun _ => false
    absPath := fun s => some s
    osEnviron := environ
    openForWritingFails := fun _ => false
    closeFileFails := fun _ => false
    startFails := false
    exitOk := exitOk
    run := run
    readBackFails := fun _ => false
    chmodFails := fun _ _ => false
    removeAllFails := false
    osErrorMsg := errMsg }

/-- Sample resource data used by witnesses. -/
def sampleData : ResourceData :=
  { id := ""
    stateNew := "S"
    stateOld := ""
    input := "i"
    inputSensitive := "is"
    output := ""
    outputSensitive := ""
    programCreate := none
    programRead := ["reader"]
    programUpdate := ["updater"]
    programDelete := ["deleter"]
    programTmpdir := ""
    programTmpdirKeep := false
    programTmpdirKeepOnError := false
    programOutputCombined := true }

/-- Sample benign oracle whose external program does nothing. -/
def sampleOs : Os :=
  benignOs ".terraform" "tmp0" "oserr" ["PATH=/bin"] (fun d => d) true

/-- Sample program value mid-invocation (directory already opened). -/
def sampleProg : Prog :=
  { Program sampleData "pin" with
      currentTmpDir := ".terraform/terraform-provider-external/tmp0"
      name := "update" }

/-- Resource data whose update command list begins with an empty string. -/
def emptyFirstData : ResourceData :=
  { sampleData with programUpdate := ["", "real-binary"] }

/-- An oracle where starting the process fails, as it would for an empty
argv[0] handed to exec.CommandContext. -/
def startFailOs : Os :=
  { sampleOs with startFails := true }

/-- Sample oracle for the stateless pipeline: lookup succeeds, the
program prints an empty JSON object. -/
def sampleStatelessOs : StatelessOs :=
  { lookup := fun _ => none
    execOutput := some "{}"
    stderrStr := ""
    parse := fun _ => some (JsonValue.obj []) }

theorem hasError_append (a b : List Diagnostic) :
    hasError (a ++ b) = (hasError a || hasError b) := by
  simp [hasError, List.any_append]

theorem hasError_nil : hasError [] = false := rfl

theorem hasError_warn (s d : String) : hasError [warnDiag s d] = false := rfl

theorem hasError_err (s d : String) : hasError [errDiag s d] = true := rfl

theorem hasError_eq_false_of_all_warning (ds : List Diagnostic)
    (h : ∀ d ∈ ds, d.severity = Severity.warning) : hasError ds = false := by
  simp only [hasError, List.any_eq_false]
  intro d hd
  simp [h d hd]

theorem dirGet_dirSet (d : Dir) (n n2 : String) (e : FileEntry) :
    dirGet (dirSet d n e) n2 = if n = n2 then some e else dirGet d n2 := by
  induction d with
  | nil =>
    simp [dirSet, dirGet]
  | cons x rest ih =>
    by_cases hx : x.1 = n
    · by_cases h2 : n = n2
      · simp [dirSet, dirGet, hx, h2]
      · have hx2 : ¬x.1 = n2 := by rw [hx]; exact h2
        simp [dirSet, dirGet, hx, h2, hx2]
    · by_cases hx2 : x.1 = n2
      · have h2 : ¬n = n2 := by rw [← hx2]; exact fun hc => hx hc.symm
        have h2s : ¬n2 = n := fun hc => h2 hc.symm
        simp [dirSet, dirGet, hx, hx2, h2, h2s]
      · simp [dirSet, dirGet, hx, hx2, ih]

theorem setAttr_id (data : ResourceData) (attr text : String) :
    (setAttr data attr text).id = data.id := by
  unfold setAttr
  split <;> try rfl
  split <;> try rfl
  split <;> rfl

theorem storeAttributesStep_id (os : Os) (acc : Prog × Dir × List Diagnostic)
    (attr : String) :
    ((storeAttributesStep os acc attr).1).data.id = (acc.1).data.id := by
  simp only [storeAttributesStep]
  split
  · rfl
  · simp [setAttr_id]

theorem storeAttributes_foldl_id (os : Os) (attrs : List String) :
    ∀ acc : Prog × Dir × List Diagnostic,
      (((attrs.foldl (storeAttributesStep os) acc).1)).data.id = (acc.1).data.id := by
  induction attrs with
  | nil => intro acc; rfl
  | cons a rest ih =>
    intro acc
    rw [List.foldl_cons, ih]
    exact storeAttributesStep_id os acc a

theorem storeAttributes_id (p : Prog) (dir : Dir) (os : Os) (attrs : List String) :
    ((storeAttributes p dir os attrs).1).data.id = p.data.id := by
  unfold storeAttributes
  exact storeAttributes_foldl_id os attrs (p, dir, [])

/-- readFile on a missing file: empty text, unchanged directory, exactly
one warning, no chmod calls. -/
theorem readFile_missing (p : Prog) (dir : Dir) (os : Os) (name : String)
    (h : dirGet dir name = none) :
    readFile p dir os name =
      { text := ""
        dir := dir
        diags := [warnDiag ("Error retrieving file information for " ++
            joinPath p.currentTmpDir name) os.osErrorMsg]
        chmods := [] } := by
  unfold readFile
  rw [h]

/-- readFile when the chmod dance and the read itself cannot fail: the
text read is the file content, and no diagnostic is an error. -/
theorem readFile_noError (p : Prog) (dir : Dir) (os : Os) (name : String)
    (hchmod : ∀ s m, os.chmodFails s m = false)
    (hread : os.readBackFails name = false) :
    hasError (readFile p dir os name).diags = false ∧
    (∀ e, dirGet dir name = some e → (readFile p dir os name).text = e.content) := by
  unfold readFile
  cases hget : dirGet dir name with
  | none => simp [hasError, warnDiag]
  | some info =>
    simp only [hchmod, hread, Bool.and_false, Bool.false_eq_true, if_false]
    constructor
    · split <;> simp [hasError]
    · intro e he
      rw [Option.some.injEq] at he
      subst he
      split <;> rfl

/-- C2: for every invocation that opened an interchange directory,
closeDir invokes the recursive removal if and only if
program_tmpdir_keep is false and not (program_tmpdir_keep_on_error is
true and the invocation had an error diagnostic); every diagnostic
closeDir can produce (a removal failure) has warning severity, so
appending them never changes whether the operation has an error. -/
theorem closeDir_removal_policy (p : Prog) (os : Os) (hadError : Bool)
    (hopen : p.currentTmpDir ≠ "") :
    ((closeDir p os hadError).2.1 = true ↔
        (p.keepTmpDir = false ∧ ¬(p.keepTmpDirOnError = true ∧ hadError = true)))
    ∧ (∀ d ∈ (closeDir p os hadError).2.2, d.severity = Severity.warning)
    ∧ (∀ diags0 : List Diagnostic,
        hasError (diags0 ++ (closeDir p os hadError).2.2) = hasError diags0) := by
  unfold closeDir
  rw [if_neg hopen]
  cases hk : p.keepTmpDir with
  | true => simp [hasError]
  | false =>
    cases hke : (p.keepTmpDirOnError && hadError) with
    | true =>
      rw [Bool.and_eq_true] at hke
      simp [hke, hasError]
    | false =>
      have hke2 : ¬(p.keepTmpDirOnError = true ∧ hadError = true) := by
        rintro ⟨h1, h2⟩
        rw [h1, h2] at hke
        simp at hke
      refine ⟨by simp [hke2], ?_, ?_⟩
      · intro d hd
        simp only [Bool.false_eq_true, if_false] at hd
        revert hd
        split <;> simp_all [warnDiag]
      · intro diags0
        rw [hasError_append]
        simp only [Bool.false_eq_true, if_false]
        split <;> simp [hasError, warnDiag]

/-- C2 witness: a concrete opened directory with both retention flags
unset is removed. -/
theorem closeDir_removal_policy_witness :
    (closeDir sampleProg sampleOs false).2.1 = true :=
  (closeDir_removal_policy sampleProg sampleOs false (by decide)).1.mpr (by decide)

/-- C6: for an existing interchange file, readFile leaves every file of
the directory exactly as it found it whenever the chmod calls succeed
(even when the read in between failed); a file whose mode forbids
reading gets exactly the chmod-to-0400 / chmod-back-to-original pair of
mode changes, a readable file gets none and the directory is untouched;
a successful read returns the file's content. -/
theorem readFile_mode_restore (p : Prog) (dir : Dir) (os : Os) (name : String)
    (info : FileEntry) (hget : dirGet dir name = some info)
    (hchmod1 : os.chmodFails name 0o400 = false)
    (hchmod2 : os.chmodFails name info.mode = false) :
    (∀ n2, dirGet (readFile p dir os name).dir n2 = dirGet dir n2)
    ∧ (info.mode &&& 0o400 = 0 →
        (readFile p dir os name).chmods = [(name, 0o400), (name, info.mode)])
    ∧ (info.mode &&& 0o400 ≠ 0 →
        (readFile p dir os name).dir = dir ∧ (readFile p dir os name).chmods = [])
    ∧ (os.readBackFails name = false →
        (readFile p dir os name).text = info.content) := by
  unfold readFile
  rw [hget]
  cases hcc : (info.mode &&& 0o400 == 0) with
  | true =>
    rw [beq_iff_eq] at hcc
    simp only [hcc, hchmod1, hchmod2, beq_self_eq_true, Bool.true_and,
      Bool.false_eq_true, if_false, if_true, ite_true, ite_false]
    refine ⟨?_, ?_, ?_, ?_⟩
    · intro n2
      by_cases hn : name = n2
      · subst hn
        simp [dirGet_dirSet, hget]
      · simp [dirGet_dirSet, hn]
    · intro _
      rfl
    · intro hc
      exact absurd rfl hc
    · intro hread
      simp [hread]
  | false =>
    have hcc2 : info.mode &&& 0o400 ≠ 0 := by
      intro hc
      rw [hc] at hcc
      simp at hcc
    simp only [hcc, Bool.false_and, Bool.false_eq_true, if_false]
    refine ⟨?_, ?_, ?_, ?_⟩
    · intro n2
      trivial
    · intro hc
      exact absurd hc (by simpa using hcc2)
    · intro _
      exact ⟨trivial, trivial⟩
    · intro hread
      simp [hread]

/-- C6 witness: a write-only (0200) output file is read back with its
content and receives exactly the temporary chmod pair. -/
theorem readFile_mode_restore_witness :
    (readFile sampleProg [("output", { mode := 0o200, content := "val" })]
        sampleOs "output").chmods = [("output", 0o400), ("output", 0o200)] :=
  (readFile_mode_restore sampleProg
      [("output", { mode := 0o200, content := "val" })] sampleOs "output"
      { mode := 0o200, content := "val" } (by decide) (by decide) (by decide)).2.1
    (by decide)

theorem string_eq_empty_of_length (s : String) (h : s.length = 0) : s = "" := by
  cases s with
  | mk l =>
    simp [String.length] at h
    simp [h]

theorem hasError_cons (d : Diagnostic) (ds : List Diagnostic) :
    hasError (d :: ds) = ((d.severity == Severity.error) || hasError ds) := rfl

theorem severity_warn_beq : (Severity.warning == Severity.error) = false := rfl

theorem severity_err_beq : (Severity.error == Severity.error) = true := rfl

theorem closeDir_data (p : Prog) (os : Os) (h : Bool) :
    ((closeDir p os h).1).data = p.data := by
  unfold closeDir
  split
  · rfl
  · split
    · rfl
    · split <;> rfl

theorem closeDir_noError (p : Prog) (os : Os) (h : Bool) :
    hasError (closeDir p os h).2.2 = false := by
  unfold closeDir
  split
  · rfl
  · split
    · rfl
    · split
      · rfl
      · split <;> simp [hasError, warnDiag]

theorem finishClose_invocations (p : Prog) (os : Os) (dir : Dir)
    (diags : List Diagnostic) (invs : List Invocation) :
    (finishClose p os dir diags invs).invocations = invs := rfl

theorem finishClose_data (p : Prog) (os : Os) (dir : Dir)
    (diags : List Diagnostic) (invs : List Invocation) :
    (finishClose p os dir diags invs).data = p.data :=
  closeDir_data p os (hasError diags)

theorem finishClose_hasError (p : Prog) (os : Os) (dir : Dir)
    (diags : List Diagnostic) (invs : List Invocation) :
    hasError (finishClose p os dir diags invs).diags = hasError diags := by
  unfold finishClose
  rw [hasError_append, closeDir_noError, Bool.or_false]

theorem storeTail_invocations (p : Prog) (os : Os) (dir : Dir)
    (diags : List Diagnostic) (invs : List Invocation) :
    (storeTail p os dir diags invs).invocations = invs := by
  simp only [storeTail]
  split <;> exact finishClose_invocations ..

theorem readCaptured_noError (p : Prog) (dir : Dir) (os : Os)
    (name what : String) :
    hasError (readCaptured p dir os name what).2 = false := by
  unfold readCaptured
  split
  · simp [hasError, warnDiag]
  · split <;> simp [hasError, warnDiag]

theorem prepareEnv_benign (p : Prog) (os : Os)
    (habs : ∀ s, (os.absPath s).isSome = true) (htmp : p.currentTmpDir ≠ "") :
    (prepareEnv p os).2 = [] := by
  unfold prepareEnv
  have hlen : ¬(p.currentTmpDir.length = 0) := fun hc =>
    htmp (string_eq_empty_of_length p.currentTmpDir hc)
  rw [if_neg hlen]
  rcases hab : os.absPath p.currentTmpDir with _ | a
  · have := habs p.currentTmpDir
    rw [hab] at this
    cases this
  · rfl

theorem createFiles_benign (perms : List (String × Nat)) (tmpDir : String)
    (os : Os) (hw : ∀ s, os.writeFileFails s = false) :
    ∀ (fs : List (String × String)) (dir : Dir),
      (createFiles perms tmpDir os fs dir).2 = [] := by
  intro fs
  induction fs with
  | nil => intro dir; rfl
  | cons x rest ih =>
    intro dir
    rcases x with ⟨name, content⟩
    simp only [createFiles, createFile, hw, Bool.false_eq_true, if_false]
    rcases hdg : dirGet dir name with _ | e <;> simp [hdg, hasError, ih]

theorem openDir_benign (p : Prog) (dir0 : Dir) (os : Os) (h : NoSetupFailures os) :
    (openDir p dir0 os).2.2 = []
    ∧ (openDir p dir0 os).1 = { p with currentTmpDir :=
        (if p.inputTmpDir ≠ "" then p.inputTmpDir
         else tempDirBase os ++ "/" ++ os.tempDirName) }
    ∧ ((openDir p dir0 os).1).currentTmpDir ≠ ""
    ∧ ((openDir p dir0 os).1).data = p.data := by
  obtain ⟨hg, hm, ht, hw, -, -, -, -, -⟩ := h
  have hbase : tempDirBase os ++ "/" ++ os.tempDirName ≠ "" := by
    intro hc
    have h2 := congrArg String.length hc
    simp [String.length_append, tempDirBase] at h2
    exact absurd h2.1.1.2 (by decide)
  unfold openDir
  rw [hg]
  by_cases hp : p.inputTmpDir ≠ ""
  · simp [hp, hm, createFiles_benign _ _ os hw]
  · simp [hp, hm, ht, createFiles_benign _ _ os hw, hbase]

theorem getArgs_create (d : ResourceData) :
    getArgs d "program_create" = d.programCreate.getD [] := rfl

theorem getArgs_read (d : ResourceData) :
    getArgs d "program_read" = d.programRead := rfl

theorem getArgs_update (d : ResourceData) :
    getArgs d "program_update" = d.programUpdate := rfl

theorem getArgs_delete (d : ResourceData) :
    getArgs d "program_delete" = d.programDelete := rfl

/-- openDir only moves the chosen path into currentTmpDir: every other
field of the program value is preserved. -/
theorem openDir_proj (p : Prog) (dir0 : Dir) (os : Os) :
    ((openDir p dir0 os).1).data = p.data
    ∧ ((openDir p dir0 os).1).files = p.files
    ∧ ((openDir p dir0 os).1).combinedOutput = p.combinedOutput
    ∧ ((openDir p dir0 os).1).perms = p.perms := by
  unfold openDir
  split
  · exact ⟨rfl, rfl, rfl, rfl⟩
  · split
    · split
      · exact ⟨rfl, rfl, rfl, rfl⟩
      · exact ⟨rfl, rfl, rfl, rfl⟩
    · split
      · exact ⟨rfl, rfl, rfl, rfl⟩
      · split
        · exact ⟨rfl, rfl, rfl, rfl⟩
        · exact ⟨rfl, rfl, rfl, rfl⟩

theorem prepareEnv_eq (p q : Prog) (os : Os)
    (htmp : p.currentTmpDir = q.currentTmpDir) (hfiles : p.files = q.files) :
    prepareEnv p os = prepareEnv q os := by
  unfold prepareEnv
  rw [htmp, hfiles]

/-- openDir ignores the program's display name, which no directory-setup
step reads: the produced directory, diagnostics and chosen path are the
same with any name. -/
theorem openDir_name (p : Prog) (n : String) (dir0 : Dir) (os : Os) :
    (openDir { p with name := n } dir0 os).2 = (openDir p dir0 os).2
    ∧ ((openDir { p with name := n } dir0 os).1).currentTmpDir
        = ((openDir p dir0 os).1).currentTmpDir := by
  unfold openDir
  dsimp only
  split
  · exact ⟨rfl, rfl⟩
  · split
    · split
      · exact ⟨rfl, rfl⟩
      · exact ⟨rfl, rfl⟩
    · split
      · exact ⟨rfl, rfl⟩
      · split
        · exact ⟨rfl, rfl⟩
        · exact ⟨rfl, rfl⟩

/-- executeCommand's outcome shape, directory effect and recorded
invocations do not depend on the program's display name (which only
appears inside diagnostic text). -/
theorem executeCommand_eq_invs (p q : Prog) (dir : Dir) (os : Os) (key : String)
    (hdata : p.data = q.data) (htmp : p.currentTmpDir = q.currentTmpDir)
    (hfiles : p.files = q.files) (hcomb : p.combinedOutput = q.combinedOutput) :
    (executeCommand p dir os key).map ExecOut.invs
      = (executeCommand q dir os key).map ExecOut.invs := by
  unfold executeCommand
  rw [hdata, hcomb, prepareEnv_eq p q os htmp hfiles]
  rcases harg : getArgs q.data key with _ | ⟨a, rest⟩ <;> simp only [harg]
  all_goals split
  all_goals try split
  all_goals try split
  all_goals try split
  all_goals try split
  all_goals rfl

/-- Every invocation executeCommand records carries the configured key
and the exact argument vector of that key. -/
theorem executeCommand_invs_spec (p : Prog) (dir : Dir) (os : Os) (key : String)
    (ex : ExecOut) (h : executeCommand p dir os key = some ex) :
    ∀ inv ∈ ex.invs, inv.key = key ∧ inv.argv = getArgs p.data key := by
  unfold executeCommand at h
  rcases harg : getArgs p.data key with _ | ⟨a, rest⟩
  · rw [harg] at h
    cases h
  · simp only [harg] at h
    all_goals try split at h
    all_goals try split at h
    all_goals try split at h
    all_goals try split at h
    all_goals try split at h
    all_goals rw [Option.some.injEq] at h
    all_goals subst h
    all_goals intro inv hinv
    all_goals simp only [List.not_mem_nil, List.mem_singleton] at hinv
    all_goals subst hinv
    all_goals exact ⟨rfl, rfl⟩

theorem executeCommand_some_args (p : Prog) (dir : Dir) (os : Os) (key : String)
    (ex : ExecOut) (h : executeCommand p dir os key = some ex) :
    getArgs p.data key ≠ [] := by
  intro hc
  unfold executeCommand at h
  rw [hc] at h
  cases h

/-- executeCommand only refuses to produce a result when the argument
list is empty (the Go code would crash indexing args[0]). -/
theorem executeCommand_none (p : Prog) (dir : Dir) (os : Os) (key : String)
    (h : executeCommand p dir os key = none) : getArgs p.data key = [] := by
  unfold executeCommand at h
  rcases harg : getArgs p.data key with _ | ⟨a, rest⟩
  · rfl
  · simp only [harg] at h
    all_goals try split at h
    all_goals try split at h
    all_goals try split at h
    all_goals try split at h
    all_goals try split at h
    all_goals cases h

theorem getOk_none (data : ResourceData) (h : data.programCreate = none) :
    getOkProgramCreate data = false := by
  simp [getOkProgramCreate, h]

theorem getOk_some (data : ResourceData) (pc : List String)
    (h : data.programCreate = some pc) (hne : pc ≠ []) :
    getOkProgramCreate data = true := by
  rcases pc with _ | ⟨a, t⟩
  · exact absurd rfl hne
  · simp [getOkProgramCreate, h]

theorem executeCommand_benign (p : Prog) (dir : Dir) (os : Os) (key : String)
    (h : NoSetupFailures os) (htmp : p.currentTmpDir ≠ "")
    (hargs : getArgs p.data key ≠ []) :
    ∃ ex, executeCommand p dir os key = some ex
      ∧ ex.dir = os.run dir
      ∧ ex.invs = [Invocation.mk key (getArgs p.data key) (prepareEnv p os).1]
      ∧ hasError ex.diags = !os.exitOk := by
  obtain ⟨-, -, -, -, habs, hop, hcl, hst, -⟩ := h
  have henv := prepareEnv_benign p os habs htmp
  rcases hargs0 : getArgs p.data key with _ | ⟨a, rest⟩
  · exact absurd hargs0 hargs
  · have hclw : ∀ s, closeFileWarn p os s = [] := by
      intro s
      unfold closeFileWarn
      rw [hcl]
      rfl
    unfold executeCommand
    rw [hargs0]
    cases hco : p.combinedOutput <;>
      simp only [henv, hasError_nil, Bool.false_eq_true, if_false, hco,
        hop, hst, hclw, List.append_nil, if_true] <;>
      refine ⟨_, rfl, rfl, rfl, ?_⟩ <;>
      cases hexit : os.exitOk <;>
        simp [hexit, hasError_append, readCaptured_noError, hasError_nil,
          combinedOutputDiag, runErrDiag, hasError_warn, hasError_err,
          hasError_cons, severity_warn_beq, severity_err_beq, warnDiag, errDiag]

/-- executeCommand_benign, phrased on an already-obtained result. -/
theorem executeCommand_benign2 (p : Prog) (dir : Dir) (os : Os) (key : String)
    (ex : ExecOut) (h : NoSetupFailures os)
    (hx : executeCommand p dir os key = some ex)
    (htmp : p.currentTmpDir ≠ "") :
    ex.dir = os.run dir
    ∧ hasError ex.diags = !os.exitOk
    ∧ ex.invs = [Invocation.mk key (getArgs p.data key) (prepareEnv p os).1] := by
  have hargs := executeCommand_some_args p dir os key ex hx
  obtain ⟨ex0, hex0, hdir0, hinvs0, herr0⟩ :=
    executeCommand_benign p dir os key h htmp hargs
  rw [hx, Option.some.injEq] at hex0
  subst hex0
  exact ⟨hdir0, herr0, hinvs0⟩

theorem storeId_benign (p : Prog) (dir : Dir) (os : Os)
    (hchmod : ∀ s m, os.chmodFails s m = false)
    (hread : os.readBackFails "id" = false) :
    hasError (storeId p dir os).2.2 = false
    ∧ (IdEmptyOrGone dir → ((storeId p dir os).1).data.id = "") := by
  obtain ⟨hne, htext⟩ := readFile_noError p dir os "id" hchmod hread
  simp only [storeId, hne, Bool.false_eq_true, if_false]
  refine ⟨trivial, ?_⟩
  intro hid
  rcases hg : dirGet dir "id" with _ | e
  · rw [readFile_missing p dir os "id" hg]
  · rw [htext e hg, hid e hg]

theorem storeAttributes_foldl_noError (os : Os)
    (hchmod : ∀ s m, os.chmodFails s m = false)
    (hread : ∀ s, os.readBackFails s = false) (attrs : List String) :
    ∀ acc : Prog × Dir × List Diagnostic,
      hasError ((attrs.foldl (storeAttributesStep os) acc).2.2)
        = hasError acc.2.2 := by
  induction attrs with
  | nil => intro acc; rfl
  | cons a rest ih =>
    intro acc
    rw [List.foldl_cons, ih]
    have hne := (readFile_noError acc.1 acc.2.1 os a hchmod (hread a)).1
    simp only [storeAttributesStep]
    split <;> simp [hasError_append, hne]

theorem storeTail_benign (p : Prog) (os : Os) (dir : Dir)
    (diags : List Diagnostic) (invs : List Invocation)
    (hchmod : ∀ s m, os.chmodFails s m = false)
    (hread : ∀ s, os.readBackFails s = false) :
    hasError (storeTail p os dir diags invs).diags = hasError diags
    ∧ (IdEmptyOrGone dir → (storeTail p os dir diags invs).data.id = "") := by
  obtain ⟨hsid, hsempty⟩ := storeId_benign p dir os hchmod (hread "id")
  have hd1 : hasError (diags ++ (storeId p dir os).2.2) = hasError diags := by
    rw [hasError_append, hsid, Bool.or_false]
  simp only [storeTail]
  constructor
  · split
    · rw [finishClose_hasError, hd1]
    · rw [finishClose_hasError, hasError_append, hd1]
      unfold storeAttributes
      rw [storeAttributes_foldl_noError os hchmod hread]
      simp [hasError]
  · intro hid
    split
    · rw [finishClose_data]
      exact hsempty hid
    · rw [finishClose_data]
      unfold storeAttributes
      rw [storeAttributes_foldl_id]
      exact hsempty hid

/-- Keys of an association list with no duplicate keys determine their
values. -/
theorem assoc_key_unique {α : Type} (q : List (String × α)) (k : String)
    (a b : α) (hnd : (q.map Prod.fst).Nodup)
    (ha : (k, a) ∈ q) (hb : (k, b) ∈ q) : a = b := by
  induction q with
  | nil => cases ha
  | cons x rest ih =>
    rw [List.map_cons, List.nodup_cons] at hnd
    rcases List.mem_cons.mp ha with ha1 | ha2
    · rcases List.mem_cons.mp hb with hb1 | hb2
      · exact (Prod.ext_iff.mp (ha1.trans hb1.symm)).2
      · exfalso
        apply hnd.1
        rw [← ha1]
        simpa using List.mem_map_of_mem Prod.fst hb2
    · rcases List.mem_cons.mp hb with hb1 | hb2
      · exfalso
        apply hnd.1
        rw [← hb1]
        simpa using List.mem_map_of_mem Prod.fst ha2
      · exact ih hnd.2 ha2 hb2

/-- C7 counterexample: in the lifecycle path, getArgs drops nothing.
The command list ["", "real-binary"] is handed to the executor exactly
as configured — it does not resolve as ["real-binary"] — and when the
start then fails the diagnostics are an execution error, never an
External Program Missing error. -/
theorem lifecycle_no_empty_filtering_cex :
    getArgs emptyFirstData "program_update" = ["", "real-binary"]
    ∧ getArgs emptyFirstData "program_update" ≠ ["real-binary"]
    ∧ (resourceExternalUpdate emptyFirstData "pin" [] sampleOs).map
        (fun r => r.invocations.map Invocation.argv)
      = some [["", "real-binary"]]
    ∧ (resourceExternalUpdate emptyFirstData "pin" [] startFailOs).map
        (fun r => (hasError r.diags,
          r.diags.any (fun d => d.summary == "External Program Missing")))
      = some (true, false) := by
  decide

/-- C7 amended: in the stateless data source and ephemeral resource,
empty-string (and null) elements of the program list are dropped before
resolution, so ["", "real-binary"] resolves as ["real-binary"], and a
program list that is empty after filtering produces the External
Program Missing error diagnostic before any lookup or spawn; the
lifecycle path's getArgs performs no such filtering. -/
theorem program_empty_filtering :
    filteredProgram [some "", some "real-binary"] = ["real-binary"]
    ∧ (∀ (config : StatelessConfig) (os : StatelessOs),
        filteredProgram config.program = [] →
          (statelessRead config os).invoked = none
          ∧ (statelessRead config os).lookedUp = none
          ∧ (statelessRead config os).diags.map Diagnostic.summary
              = ["External Program Missing"]
          ∧ hasError (statelessRead config os).diags = true) := by
  refine ⟨by decide, ?_⟩
  intro config os h
  unfold statelessRead
  rw [h]
  exact ⟨rfl, rfl, rfl, rfl⟩

/-- C7 witness: a program list whose elements are all empty or null is
rejected without spawning anything. -/
theorem program_empty_filtering_witness :
    (statelessRead { program := [some "", none], workingDir := "", query := [] }
        sampleStatelessOs).invoked = none :=
  (program_empty_filtering.2
      { program := [some "", none], workingDir := "", query := [] }
      sampleStatelessOs (by decide)).1

/-- C8: resolving the first filtered program element treats the
exec.ErrDot outcome ("relative path implicitly found in the current
directory") like a successful lookup and proceeds to execution, while
every other lookup failure aborts with the External Program Lookup
Failed error diagnostic before the process is started. -/
theorem lookup_errdot_leniency (config : StatelessConfig) (os : StatelessOs)
    (a : String) (rest : List String)
    (hfp : filteredProgram config.program = a :: rest) :
    (os.lookup a = some LookupErr.errDot →
        (statelessRead config os).invoked = some (a :: rest))
    ∧ (os.lookup a = none →
        (statelessRead config os).invoked = some (a :: rest))
    ∧ (∀ msg, os.lookup a = some (LookupErr.other msg) →
        (statelessRead config os).invoked = none
        ∧ hasError (statelessRead config os).diags = true
        ∧ (statelessRead config os).diags.map Diagnostic.summary
            = ["External Program Lookup Failed"]) := by
  unfold statelessRead
  refine ⟨?_, ?_, ?_⟩
  · intro h
    rcases hse : os.execOutput with _ | rj
    · simp [hfp, h, hse]
    · rcases hp : os.parse rj with _ | v <;> simp [hfp, h, hse, hp]
  · intro h
    rcases hse : os.execOutput with _ | rj
    · simp [hfp, h, hse]
    · rcases hp : os.parse rj with _ | v <;> simp [hfp, h, hse, hp]
  · intro msg h
    refine ⟨?_, ?_, ?_⟩ <;> simp [hfp, h, hasError, errDiag]

/-- C8 witness: a concrete lookup returning ErrDot still leads to the
program being executed. -/
theorem lookup_errdot_leniency_witness :
    (statelessRead { program := [some "./x"], workingDir := "", query := [] }
        { lookup := fun _ => some LookupErr.errDot
          execOutput := some "{}"
          stderrStr := ""
          parse := fun _ => some (JsonValue.obj []) }).invoked = some ["./x"] :=
  (lookup_errdot_leniency { program := [some "./x"], workingDir := "", query := [] }
      { lookup := fun _ => some LookupErr.errDot
        execOutput := some "{}"
        stderrStr := ""
        parse := fun _ => some (JsonValue.obj []) }
      "./x" [] (by decide)).1 rfl

/-- C9: in the query map serialized onto the program's standard input,
entries with a null value are omitted entirely, while entries holding an
empty string are kept with that explicit empty string; and whenever the
program is executed, the serialized map is exactly filteredQuery of the
configured query. -/
theorem query_null_filtering (q : List (String × Option String)) (k : String)
    (hnd : (q.map Prod.fst).Nodup) :
    ((k, none) ∈ q → k ∉ (filteredQuery q).map Prod.fst)
    ∧ ((k, some "") ∈ q → (k, "") ∈ filteredQuery q)
    ∧ (∀ (config : StatelessConfig) (os : StatelessOs)
        (fq : List (String × String)), config.query = q →
          (statelessRead config os).sentQuery = some fq →
            fq = filteredQuery q) := by
  refine ⟨?_, ?_, ?_⟩
  · intro hmem hk
    rcases List.mem_map.mp hk with ⟨⟨k2, v⟩, hv, hfst⟩
    rcases List.mem_filterMap.mp hv with ⟨⟨x1, x2⟩, hx, hfx⟩
    rcases x2 with _ | w
    · simp [filteredQuery] at hfx
    · simp only [filteredQuery] at hfx
      rw [Option.some.injEq, Prod.mk.injEq] at hfx
      obtain ⟨hx1, hx2⟩ := hfx
      simp only at hfst
      have hxk : x1 = k := hx1.trans hfst
      have hq2 : (k, some w) ∈ q := by rw [← hxk]; exact hx
      exact Option.noConfusion (assoc_key_unique q k none (some w) hnd hmem hq2)
  · intro hmem
    exact List.mem_filterMap.mpr ⟨(k, some ""), hmem, rfl⟩
  · intro config os fq hq hsent
    unfold statelessRead at hsent
    rcases hfp : filteredProgram config.program with _ | ⟨a, rest⟩ <;>
      simp only [hfp] at hsent
    · cases hsent
    · rcases hl : os.lookup a with _ | e
      · simp only [hl] at hsent
        rcases hse : os.execOutput with _ | rj <;> simp only [hse, Option.some.injEq] at hsent
        · rw [← hq, ← hsent]
        · rcases hp : os.parse rj with _ | v <;> simp only [hp, Option.some.injEq] at hsent <;>
            rw [← hq, ← hsent]
      · rcases e with _ | msg <;> simp only [hl] at hsent
        · rcases hse : os.execOutput with _ | rj <;> simp only [hse, Option.some.injEq] at hsent
          · rw [← hq, ← hsent]
          · rcases hp : os.parse rj with _ | v <;> simp only [hp, Option.some.injEq] at hsent <;>
              rw [← hq, ← hsent]
        · cases hsent

/-- C9 witness: a query with a null-valued key and an empty-string key
keeps the empty string and drops the null. -/
theorem query_null_filtering_witness :
    ("value", "") ∈ filteredQuery [("value", some ""), ("gone", none)] :=
  (query_null_filtering [("value", some ""), ("gone", none)] "value"
      (by decide)).2.1 (by decide)

/-- C10: a stateless read that reaches the success path stores the
constant id "-" (and the id is never set to anything else). -/
theorem stateless_id_constant (config : StatelessConfig) (os : StatelessOs) :
    (hasError (statelessRead config os).diags = false →
        (statelessRead config os).stateId = some "-")
    ∧ ((statelessRead config os).stateId = none
        ∨ (statelessRead config os).stateId = some "-") := by
  unfold statelessRead
  rcases hfp : filteredProgram config.program with _ | ⟨a, rest⟩
  · simp [hasError, errDiag]
  · rcases hl : os.lookup a with _ | e
    · rcases hse : os.execOutput with _ | rj
      · simp [hl, hse, hasError, errDiag]
      · rcases hp : os.parse rj with _ | v <;> simp [hl, hse, hp, hasError, errDiag]
    · rcases e with _ | msg
      · rcases hse : os.execOutput with _ | rj
        · simp [hl, hse, hasError, errDiag]
        · rcases hp : os.parse rj with _ | v <;> simp [hl, hse, hp, hasError, errDiag]
      · simp [hl, hasError, errDiag]

/-- C5: after every delete invocation the tracked identity is cleared
unconditionally (data.SetId("") runs after the delete program whatever
happened); a nonzero exit of the delete program still surfaces an
error-severity diagnostic. -/
theorem delete_clears_identity (data : ResourceData) (pin : String)
    (dir0 : Dir) (os : Os) :
    (∀ r ∈ resourceExternalDelete data pin dir0 os, r.data.id = "")
    ∧ (NoSetupFailures os → os.exitOk = false → data.programDelete ≠ [] →
        ∀ r ∈ resourceExternalDelete data pin dir0 os, hasError r.diags = true) := by
  constructor
  · intro r hr
    unfold resourceExternalDelete at hr
    rcases hrp : runProgram data pin dir0 os "delete" "program_delete" with _ | v <;>
      rw [hrp] at hr
    · cases hr
    · rw [Option.mem_def, Option.some.injEq] at hr
      subst hr
      rfl
  · intro hns hexit hdel r hr
    obtain ⟨ho1, -, ho3, ho4⟩ :=
      openDir_benign { Program data pin with name := "delete" } dir0 os hns
    unfold resourceExternalDelete runProgram at hr
    have hargs : getArgs
        ((openDir { Program data pin with name := "delete" } dir0 os).1).data
        "program_delete" ≠ [] := by
      rw [ho4, getArgs_delete]
      exact hdel
    obtain ⟨ex, hex, hdir, hinvs, herr⟩ :=
      executeCommand_benign _
        ((openDir { Program data pin with name := "delete" } dir0 os).2.1) os
        "program_delete" hns ho3 hargs
    have herr2 : hasError ex.diags = true := by
      rw [herr, hexit]
      rfl
    simp only [ho1, hasError_nil, Bool.false_eq_true, if_false, hex,
      List.nil_append, herr2, if_true] at hr
    rw [Option.mem_def, Option.some.injEq] at hr
    subst hr
    show hasError (finishClose _ os ex.dir ex.diags ex.invs).diags = true
    rw [finishClose_hasError]
    exact herr2

/-- C5 witness: a concrete delete run (succeeding program) ends with an
empty identity. -/
theorem delete_clears_identity_witness :
    (resourceExternalDelete sampleData "pin" [] sampleOs).map
        (fun r => r.data.id) = some "" := by
  rcases hre : resourceExternalDelete sampleData "pin" [] sampleOs with _ | r
  · exact absurd hre (by decide)
  · have h := (delete_clears_identity sampleData "pin" [] sampleOs).1 r
      (by rw [Option.mem_def, hre])
    rw [Option.map_some', h]

/-- C3 counterexample: a create invocation whose program exits 0 without
touching the interchange directory (so the id file stays empty) finishes
with NO error-severity diagnostic, and the empty identity is stored:
the claimed MissingIdentityError diagnostic does not exist in the code. -/
theorem create_missing_identity_cex :
    (resourceExternalCreate sampleData "pin" [] sampleOs).map
        (fun r => (hasError r.diags, r.data.id)) = some (false, "") := by
  decide

/-- C3 amended: when the create invocation itself succeeds but the
program never wrote a non-empty id, the provider stores the empty
identity (the engine then treats the resource as not created) and
finishes without any error-severity diagnostic of its own. -/
theorem create_missing_identity_amended (data : ResourceData) (pin : String)
    (dir0 : Dir) (os : Os) (hns : NoSetupFailures os)
    (hrb : NoReadBackFailures os) (hexit : os.exitOk = true)
    (hrun : ∀ d, IdEmptyOrGone (os.run d)) :
    ∀ r ∈ resourceExternalCreate data pin dir0 os,
      r.data.id = "" ∧ hasError r.diags = false := by
  obtain ⟨hread, hchmod⟩ := hrb
  intro r hr
  obtain ⟨ho1, -, ho3, ho4⟩ :=
    openDir_benign { Program data pin with name := "create" } dir0 os hns
  unfold resourceExternalCreate at hr
  simp only [ho1, hasError_nil, Bool.false_eq_true, if_false,
    List.nil_append] at hr
  cases hgo : getOkProgramCreate data <;> simp only [hgo, if_true, if_false,
    Bool.false_eq_true, Bool.true_eq_false] at hr
  · split at hr
    · cases hr
    · rename_i ex hex
      obtain ⟨hdir0, herr0, hinvs0⟩ :=
        executeCommand_benign2 _ _ os "program_update" ex hns hex ho3
      rw [Option.mem_def, Option.some.injEq] at hr
      subst hr
      obtain ⟨hst1, hst2⟩ := storeTail_benign _ os ex.dir ex.diags ex.invs
        hchmod hread
      refine ⟨hst2 ?_, ?_⟩
      · rw [hdir0]
        exact hrun _
      · rw [hst1, herr0, hexit]
        rfl
  · split at hr
    · cases hr
    · rename_i ex hex
      obtain ⟨hdir0, herr0, hinvs0⟩ :=
        executeCommand_benign2 _ _ os "program_create" ex hns hex ho3
      have herr2 : hasError ex.diags = false := by
        rw [herr0, hexit]
        rfl
      simp only [herr2, Bool.false_eq_true, if_false] at hr
      rw [Option.mem_def, Option.some.injEq] at hr
      subst hr
      obtain ⟨hst1, hst2⟩ := storeTail_benign _ os ex.dir ex.diags ex.invs
        hchmod hread
      refine ⟨hst2 ?_, ?_⟩
      · rw [hdir0]
        exact hrun _
      · rw [hst1]
        exact herr2

/-- C3 amended witness: concrete benign create with a do-nothing program
ends with empty id and no error. -/
theorem create_missing_identity_amended_witness :
    (resourceExternalCreate sampleData "pin" []
        (benignOs ".terraform" "w3" "oserr" []
          (fun d => dirSet d "id" { mode := 0o600, content := "" }) true)).map
        (fun r => (r.data.id, hasError r.diags)) = some ("", false) := by
  rcases hre : resourceExternalCreate sampleData "pin" []
      (benignOs ".terraform" "w3" "oserr" []
        (fun d => dirSet d "id" { mode := 0o600, content := "" }) true)
    with _ | r
  · exact absurd hre (by decide)
  · have h := create_missing_identity_amended sampleData "pin" []
      (benignOs ".terraform" "w3" "oserr" []
        (fun d => dirSet d "id" { mode := 0o600, content := "" }) true)
      ⟨rfl, fun _ => rfl, rfl, fun _ => rfl, fun _ => rfl, fun _ => rfl,
        fun _ => rfl, rfl, rfl⟩
      ⟨fun _ => rfl, fun _ _ => rfl⟩ rfl
      (by
        intro d e hg
        simp only [benignOs] at hg
        rw [dirGet_dirSet] at hg
        simp at hg
        rw [← hg])
      r (by rw [Option.mem_def, hre])
    rw [Option.map_some', h.1, h.2]

/-- C4: when the read program leaves the id file empty or deletes it,
the read verb stores an empty identity whatever the other interchange
files hold; and readFile on a missing file yields empty content with a
single warning-severity diagnostic, never a hard error. -/
theorem read_clears_identity (data : ResourceData) (pin : String)
    (dir0 : Dir) (os : Os) (hns : NoSetupFailures os)
    (hrb : NoReadBackFailures os) (hexit : os.exitOk = true)
    (hrun : ∀ d, IdEmptyOrGone (os.run d)) :
    (∀ r ∈ resourceExternalRead data pin dir0 os, r.data.id = "")
    ∧ (∀ (q : Prog) (dir : Dir) (name : String), dirGet dir name = none →
        (readFile q dir os name).text = ""
        ∧ (readFile q dir os name).diags.map Diagnostic.severity
            = [Severity.warning]) := by
  obtain ⟨hread, hchmod⟩ := hrb
  constructor
  · intro r hr
    obtain ⟨ho1, -, ho3, ho4⟩ :=
      openDir_benign { Program data pin with name := "read" } dir0 os hns
    unfold resourceExternalRead at hr
    simp only [ho1, hasError_nil, Bool.false_eq_true, if_false,
      List.nil_append] at hr
    split at hr
    · cases hr
    · rename_i ex hex
      obtain ⟨hdir0, herr0, hinvs0⟩ :=
        executeCommand_benign2 _ _ os "program_read" ex hns hex ho3
      have herr2 : hasError ex.diags = false := by
        rw [herr0, hexit]
        rfl
      simp only [herr2, Bool.false_eq_true, if_false] at hr
      rw [Option.mem_def, Option.some.injEq] at hr
      subst hr
      obtain ⟨hst1, hst2⟩ := storeTail_benign _ os ex.dir ex.diags ex.invs
        hchmod hread
      refine hst2 ?_
      rw [hdir0]
      exact hrun _
  · intro q dir name hg
    rw [readFile_missing q dir os name hg]
    exact ⟨rfl, rfl⟩

/-- C4 witness: concrete benign read with a program that empties the id
file stores an empty identity. -/
theorem read_clears_identity_witness :
    (resourceExternalRead sampleData "pin" []
        (benignOs ".terraform" "tmp0" "oserr" []
          (fun d => dirSet d "id" { mode := 0o600, content := "" }) true)).map
        (fun r => r.data.id) = some "" := by
  rcases hre : resourceExternalRead sampleData "pin" []
      (benignOs ".terraform" "tmp0" "oserr" []
        (fun d => dirSet d "id" { mode := 0o600, content := "" }) true)
    with _ | r
  · exact absurd hre (by decide)
  · have h := (read_clears_identity sampleData "pin" []
      (benignOs ".terraform" "tmp0" "oserr" []
        (fun d => dirSet d "id" { mode := 0o600, content := "" }) true)
      ⟨rfl, fun _ => rfl, rfl, fun _ => rfl, fun _ => rfl, fun _ => rfl,
        fun _ => rfl, rfl, rfl⟩
      ⟨fun _ => rfl, fun _ _ => rfl⟩ rfl
      (by
        intro d e hg
        simp only [benignOs] at hg
        rw [dirGet_dirSet] at hg
        simp at hg
        rw [← hg])).1 r (by rw [Option.mem_def, hre])
    rw [Option.map_some', h]

/-- C1: when program_create is unset, the create verb starts exactly the
same command invocations (program key, argument vector and prepared
environment, over the same interchange directory) as the update verb;
when program_create is set and non-empty, every command create starts is
program_create with its configured argument vector; and when directory
setup succeeds, the fallback create actually starts one program_update
invocation. -/
theorem create_program_selection (data : ResourceData) (pin : String)
    (dir0 : Dir) (os : Os) (hupd : data.programUpdate ≠ []) :
    (data.programCreate = none →
      (resourceExternalCreate data pin dir0 os).map VerbResult.invocations
        = (resourceExternalUpdate data pin dir0 os).map VerbResult.invocations)
    ∧ (∀ pc, data.programCreate = some pc → pc ≠ [] →
        ∀ r ∈ resourceExternalCreate data pin dir0 os,
          ∀ inv ∈ r.invocations, inv.key = "program_create" ∧ inv.argv = pc)
    ∧ (data.programCreate = none → NoSetupFailures os →
        ∃ r, resourceExternalCreate data pin dir0 os = some r
          ∧ ∃ env, r.invocations
              = [Invocation.mk "program_update" data.programUpdate env]) := by
  refine ⟨?_, ?_, ?_⟩
  · intro hnone
    have hgo := getOk_none data hnone
    have hoc := openDir_name (Program data pin) "create" dir0 os
    have hou := openDir_name (Program data pin) "update" dir0 os
    have hprojc := openDir_proj { Program data pin with name := "create" } dir0 os
    have hproju := openDir_proj { Program data pin with name := "update" } dir0 os
    unfold resourceExternalCreate resourceExternalUpdate
    simp only [hgo, Bool.false_eq_true, if_false]
    rw [hoc.1, hou.1]
    have hdata : ({ (openDir { Program data pin with name := "create" } dir0 os).1 with
        name := ((openDir { Program data pin with name := "create" } dir0 os).1).name
          ++ ">update" } : Prog).data
        = ((openDir { Program data pin with name := "update" } dir0 os).1).data :=
      hprojc.1.trans hproju.1.symm
    have hfiles : ({ (openDir { Program data pin with name := "create" } dir0 os).1 with
        name := ((openDir { Program data pin with name := "create" } dir0 os).1).name
          ++ ">update" } : Prog).files
        = ((openDir { Program data pin with name := "update" } dir0 os).1).files :=
      hprojc.2.1.trans hproju.2.1.symm
    have hcomb : ({ (openDir { Program data pin with name := "create" } dir0 os).1 with
        name := ((openDir { Program data pin with name := "create" } dir0 os).1).name
          ++ ">update" } : Prog).combinedOutput
        = ((openDir { Program data pin with name := "update" } dir0 os).1).combinedOutput :=
      hprojc.2.2.1.trans hproju.2.2.1.symm
    have htmp : ({ (openDir { Program data pin with name := "create" } dir0 os).1 with
        name := ((openDir { Program data pin with name := "create" } dir0 os).1).name
          ++ ">update" } : Prog).currentTmpDir
        = ((openDir { Program data pin with name := "update" } dir0 os).1).currentTmpDir :=
      hoc.2.trans hou.2.symm
    have hinvmap := executeCommand_eq_invs
      { (openDir { Program data pin with name := "create" } dir0 os).1 with
          name := ((openDir { Program data pin with name := "create" } dir0 os).1).name
            ++ ">update" }
      ((openDir { Program data pin with name := "update" } dir0 os).1)
      ((openDir (Program data pin) dir0 os).2.1) os "program_update"
      hdata htmp hfiles hcomb
    split
    · rfl
    · split
      · rename_i hexc
        split
        · rfl
        · rename_i exu hexu
          rw [hexc, hexu] at hinvmap
          simp at hinvmap
      · rename_i exc hexc
        split
        · rename_i hexu
          rw [hexc, hexu] at hinvmap
          simp at hinvmap
        · rename_i exu hexu
          rw [hexc, hexu] at hinvmap
          simp at hinvmap
          split
          all_goals simp [storeTail_invocations, finishClose_invocations, hinvmap]
  · intro pc hpc hpcne r hr
    have hgo := getOk_some data pc hpc hpcne
    unfold resourceExternalCreate at hr
    simp only [hgo, if_true] at hr
    split at hr
    · rw [Option.mem_def, Option.some.injEq] at hr
      subst hr
      intro inv hinv
      rw [finishClose_invocations] at hinv
      cases hinv
    · split at hr
      · cases hr
      · rename_i ex hex
        split at hr <;>
          (rw [Option.mem_def, Option.some.injEq] at hr
           subst hr
           intro inv hinv)
        · rw [finishClose_invocations] at hinv
          obtain ⟨hk, ha⟩ := executeCommand_invs_spec _ _ _ _ _ hex inv hinv
          refine ⟨hk, ?_⟩
          dsimp only at ha
          rw [(openDir_proj _ dir0 os).1, getArgs_create] at ha
          simp only [Program] at ha
          rw [hpc, Option.getD_some] at ha
          exact ha
        · rw [storeTail_invocations] at hinv
          obtain ⟨hk, ha⟩ := executeCommand_invs_spec _ _ _ _ _ hex inv hinv
          refine ⟨hk, ?_⟩
          dsimp only at ha
          rw [(openDir_proj _ dir0 os).1, getArgs_create] at ha
          simp only [Program] at ha
          rw [hpc, Option.getD_some] at ha
          exact ha
  · intro hnone hns
    have hgo := getOk_none data hnone
    obtain ⟨ho1, -, ho3, ho4⟩ :=
      openDir_benign { Program data pin with name := "create" } dir0 os hns
    unfold resourceExternalCreate
    simp only [ho1, hasError_nil, Bool.false_eq_true, if_false, hgo,
      List.nil_append]
    split
    · rename_i hexn
      have hempty := executeCommand_none _ _ _ _ hexn
      dsimp only at hempty
      rw [(openDir_proj _ dir0 os).1, getArgs_update] at hempty
      simp only [Program] at hempty
      exact absurd hempty hupd
    · rename_i ex hex
      obtain ⟨hdir0, herr0, hinvs0⟩ :=
        executeCommand_benign2 _ _ os "program_update" ex hns hex ho3
      refine ⟨_, rfl, ?_⟩
      rw [storeTail_invocations, hinvs0]
      dsimp only
      rw [(openDir_proj _ dir0 os).1]
      simp only [Program, getArgs_update]
      exact ⟨_, rfl⟩

/-- C1 witness: a concrete resource with program_create unset invokes
the update command from create. -/
theorem create_program_selection_witness :
    (resourceExternalCreate sampleData "pin" [] sampleOs).map
        VerbResult.invocations
      = (resourceExternalUpdate sampleData "pin" [] sampleOs).map
        VerbResult.invocations :=
  (create_program_selection sampleData "pin" [] sampleOs (by decide)).1 rfl

end External
